import Mathlib

/-!
Shallow embedding of `utxo_input.go` from the iota.go repository: the
`UTXOInput` reference record, its binary codec (`Serialize` / `Deserialize`
driven by a validation mode), its JSON adapter (`MarshalJSON` /
`UnmarshalJSON`), and the derived `UTXOInputID` with its hex form.

Bytes are modelled as natural numbers below 256; byte buffers as `List Nat`.
The generic serializer/deserializer collaborator (`NewSerializer`,
`NewDeserializer` and their chained combinators), the check helpers and the
JSON intermediate struct are not part of the given sources, so they are
modelled from the spec, as marked on each definition.
-/

deriving instance DecidableEq for Except

namespace Iota

/-- Error kinds of the codec, as named by the spec (§7). -/
inductive SeriErr where
  | TruncatedInput
  | TypeMismatch
  | SlotIndexOutOfRange
  | MalformedJSON
  | InvalidHexEncoding
deriving DecidableEq, Repr

/-- The minimum index of a referenced UTXO (`RefUTXOIndexMin`). -/
def RefUTXOIndexMin : Nat := 0

/-- The maximum index of a referenced UTXO (`RefUTXOIndexMax`). -/
def RefUTXOIndexMax : Nat := 126

/-- Modelled from the spec: `SmallTypeDenotationByteSize`, declared outside the
given sources; the type tag occupies one byte (§6 wire table). -/
def SmallTypeDenotationByteSize : Nat := 1

/-- Modelled from the spec: `TransactionIDLength`, declared outside the given
sources; the producer identifier is 32 bytes (§3, §6). -/
def TransactionIDLength : Nat := 32

/-- Modelled from the spec: `UInt16ByteSize`, declared outside the given
sources; the slot index is a little-endian unsigned 16-bit integer (§6). -/
def UInt16ByteSize : Nat := 2

/-- The size of a UTXO input: input type + tx id + index. -/
def UTXOInputSize : Nat := SmallTypeDenotationByteSize + TransactionIDLength + UInt16ByteSize

/-- Modelled from the spec: `InputUTXO`, the reserved type-tag constant
identifying the UTXO-input record kind, declared outside the given sources
(§4.2); its concrete value is irrelevant to the claims. -/
def InputUTXO : Nat := 0

/-- Modelled from the spec: the validation mode (§4.2). `true` models a mode
for which `HasMode(DeSeriModePerformValidation)` holds (strict), `false` the
permissive `none` mode. -/
abbrev DeSerializationMode := Bool

/-- UTXOInput references an unspent transaction output by the Transaction's ID
and the corresponding index of the output. `TransactionID` models the Go
`[32]byte` array (length 32, entries below 256 for well-formed records),
`TransactionOutputIndex` the Go `uint16`. -/
structure UTXOInput where
  TransactionID : List Nat
  TransactionOutputIndex : Nat
deriving DecidableEq, Repr

/-- Well-formedness of the Go representation: the transaction ID array has
exactly 32 byte entries and the output index fits in a `uint16`. -/
def UTXOInput.WF (u : UTXOInput) : Prop :=
  u.TransactionID.length = TransactionIDLength ∧
    (∀ b ∈ u.TransactionID, b < 256) ∧
    u.TransactionOutputIndex < 65536

instance (u : UTXOInput) : Decidable u.WF := by
  unfold UTXOInput.WF; infer_instance

/-- `binary.LittleEndian.PutUint16`: the low byte followed by the high byte. -/
def putUint16LE (n : Nat) : List Nat := [n % 256, n / 256 % 256]

/-- UTXOInputID defines the identifier for an UTXO input which consists out of
the referenced transaction ID and the given output index (a `[34]byte`). -/
abbrev UTXOInputID := List Nat

/-- ID returns the UTXOInputID: the 32 transaction-ID bytes (zero padded, as
the Go array is zero initialised before `copy`) followed by the output index in
little-endian. -/
def UTXOInput.ID (u : UTXOInput) : UTXOInputID :=
  (u.TransactionID.take TransactionIDLength
      ++ List.replicate (TransactionIDLength - u.TransactionID.length) 0)
    ++ putUint16LE u.TransactionOutputIndex

/-- Lowercase hex digit of a value below 16, as produced by `%x`. -/
def hexDigit (n : Nat) : Char :=
  if n < 10 then Char.ofNat (48 + n) else Char.ofNat (87 + n)

/-- Two lowercase hex digits of a byte, as produced by `%x`. -/
def byteToHex (b : Nat) : List Char := [hexDigit (b / 16), hexDigit (b % 16)]

/-- `fmt.Sprintf("%x", bytes)`: lowercase hex, two digits per byte, no
separators. -/
def bytesToHex (bs : List Nat) : String := ⟨(bs.map byteToHex).flatten⟩

/-- ToHex converts the UTXOInputID to its hex representation. -/
def UTXOInputID.ToHex (utxoInputID : UTXOInputID) : String := bytesToHex utxoInputID

/-- Modelled from the spec: `checkMinByteLength`, declared outside the given
sources; fails with `TruncatedInput` when fewer bytes are available than the
fixed record size (§4.2 step 1, §7). -/
def checkMinByteLength (minLen len : Nat) : Except SeriErr Unit :=
  if len < minLen then .error .TruncatedInput else .ok ()

/-- Modelled from the spec: `checkTypeByte`, declared outside the given
sources; fails with `TypeMismatch` when the leading byte differs from the
expected tag (§4.2 step 2, §7), and with `TruncatedInput` on an empty buffer. -/
def checkTypeByte (data : List Nat) (ty : Nat) : Except SeriErr Unit :=
  match data with
  | [] => .error .TruncatedInput
  | b :: _ => if b = ty then .ok () else .error .TypeMismatch

/-- Modelled from the spec: `utxoInputRefBoundsValidator`, declared outside the
given sources; rejects a slot index outside `[RefUTXOIndexMin,
RefUTXOIndexMax]` with `SlotIndexOutOfRange` (§3, §7). -/
def utxoInputRefBoundsValidator (u : UTXOInput) : Except SeriErr Unit :=
  if RefUTXOIndexMin ≤ u.TransactionOutputIndex ∧
      u.TransactionOutputIndex ≤ RefUTXOIndexMax then .ok ()
  else .error .SlotIndexOutOfRange

/-- Modelled from the spec: the generic byte-deserializer collaborator (§6);
a cursor over the source bytes threading the object under construction and a
sticky first error (abort-on-error short-circuit). -/
structure Deserializer where
  src : List Nat
  offset : Nat
  obj : UTXOInput
  err : Option SeriErr

/-- Modelled from the spec: `NewDeserializer` starts at offset 0 with no
error; the object is the receiver record being populated. -/
def NewDeserializer (data : List Nat) (u : UTXOInput) : Deserializer :=
  { src := data, offset := 0, obj := u, err := none }

/-- Modelled from the spec: `AbortIf` runs a check and records its error;
a no-op once an earlier step has failed. -/
def Deserializer.AbortIf (d : Deserializer) (f : Deserializer → Option SeriErr) :
    Deserializer :=
  if d.err.isSome then d else { d with err := f d }

/-- Modelled from the spec: `Skip` advances the cursor by `n` bytes, failing
with `TruncatedInput` when fewer remain. -/
def Deserializer.Skip (d : Deserializer) (n : Nat) : Deserializer :=
  if d.err.isSome then d
  else if d.src.length - d.offset < n then { d with err := some .TruncatedInput }
  else { d with offset := d.offset + n }

/-- Modelled from the spec: `ReadArrayOf32Bytes` copies the next 32 bytes
verbatim into the object's transaction ID (§4.2 step 4). -/
def Deserializer.ReadArrayOf32Bytes (d : Deserializer) : Deserializer :=
  if d.err.isSome then d
  else if d.src.length - d.offset < 32 then { d with err := some .TruncatedInput }
  else
    { d with
      obj := { d.obj with TransactionID := (d.src.drop d.offset).take 32 }
      offset := d.offset + 32 }

/-- Modelled from the spec: `ReadNum` on a `uint16` target reads the next two
bytes as a little-endian unsigned 16-bit integer into the object's output
index (§4.2 step 5). -/
def Deserializer.ReadNumUint16 (d : Deserializer) : Deserializer :=
  if d.err.isSome then d
  else if d.src.length - d.offset < 2 then { d with err := some .TruncatedInput }
  else
    { d with
      obj := { d.obj with
        TransactionOutputIndex :=
          (d.src.drop d.offset).getD 0 0 + 256 * (d.src.drop d.offset).getD 1 0 }
      offset := d.offset + 2 }

/-- Modelled from the spec: `Done` yields the populated object together with
the count of bytes consumed, or the first recorded error. -/
def Deserializer.Done (d : Deserializer) : UTXOInput × Except SeriErr Nat :=
  match d.err with
  | some e => (d.obj, .error e)
  | none => (d.obj, .ok d.offset)

/-- `UTXOInput.Deserialize` from `utxo_input.go`: the chained deserializer
pipeline; the first `AbortIf` performs the strict length and type-tag checks,
the final `AbortIf` the strict bounds check, after the field reads. The
receiver `u` is mutated in place, so the final record state is returned
alongside the consumed-bytes result. -/
def UTXOInput.Deserialize (u : UTXOInput) (data : List Nat)
    (deSeriMode : DeSerializationMode) : UTXOInput × Except SeriErr Nat :=
  let d0 := NewDeserializer data u
  let d1 := d0.AbortIf (fun _ =>
    if deSeriMode then
      match checkMinByteLength UTXOInputSize data.length with
      | .error e => some e
      | .ok _ =>
        match checkTypeByte data InputUTXO with
        | .error e => some e
        | .ok _ => none
    else none)
  let d2 := d1.Skip SmallTypeDenotationByteSize
  let d3 := d2.ReadArrayOf32Bytes
  let d4 := d3.ReadNumUint16
  let d5 := d4.AbortIf (fun d =>
    if deSeriMode then
      match utxoInputRefBoundsValidator d.obj with
      | .error e => some e
      | .ok _ => none
    else none)
  d5.Done

/-- The record produced by the full read path on `data`: the 32 bytes after
the type tag, and the little-endian 16-bit integer at offsets 33 and 34. -/
def decodedRecord (data : List Nat) : UTXOInput :=
  { TransactionID := (data.drop 1).take 32
    TransactionOutputIndex := (data.drop 33).getD 0 0 + 256 * (data.drop 33).getD 1 0 }

/-- Modelled from the spec: the generic byte-serializer collaborator (§6); an
output buffer with a sticky first error (abort-on-error short-circuit). -/
structure Serializer where
  buf : List Nat
  err : Option SeriErr

/-- Modelled from the spec: `NewSerializer` starts with an empty buffer and no
error. -/
def NewSerializer : Serializer := { buf := [], err := none }

/-- Modelled from the spec: `AbortIf` runs a check before any write; a no-op
once an earlier step has failed. -/
def Serializer.AbortIf (s : Serializer) (f : Unit → Option SeriErr) : Serializer :=
  if s.err.isSome then s else { s with err := f () }

/-- Modelled from the spec: `WriteNum` on a byte-sized value appends its single
byte. -/
def Serializer.WriteNumByte (s : Serializer) (b : Nat) : Serializer :=
  if s.err.isSome then s else { s with buf := s.buf ++ [b % 256] }

/-- Modelled from the spec: `WriteBytes` appends raw bytes verbatim. -/
def Serializer.WriteBytes (s : Serializer) (bs : List Nat) : Serializer :=
  if s.err.isSome then s else { s with buf := s.buf ++ bs }

/-- Modelled from the spec: `WriteNum` on a `uint16` value appends its two
little-endian bytes. -/
def Serializer.WriteNumUint16 (s : Serializer) (n : Nat) : Serializer :=
  if s.err.isSome then s else { s with buf := s.buf ++ putUint16LE n }

/-- Modelled from the spec: `Serialize` yields the accumulated bytes, or the
first recorded error with no output bytes. -/
def Serializer.Serialize (s : Serializer) : Except SeriErr (List Nat) :=
  match s.err with
  | some e => .error e
  | none => .ok s.buf

/-- `UTXOInput.Serialize` from `utxo_input.go`: the strict bounds check runs
first via `AbortIf`, before the type tag, the transaction ID and the output
index are written. -/
def UTXOInput.Serialize (u : UTXOInput) (deSeriMode : DeSerializationMode) :
    Except SeriErr (List Nat) :=
  let s0 := NewSerializer
  let s1 := s0.AbortIf (fun _ =>
    if deSeriMode then
      match utxoInputRefBoundsValidator u with
      | .error e => some e
      | .ok _ => none
    else none)
  let s2 := s1.WriteNumByte InputUTXO
  let s3 := s2.WriteBytes u.TransactionID
  let s4 := s3.WriteNumUint16 u.TransactionOutputIndex
  s4.Serialize

/-- Modelled from the spec: `jsonutxoinput`, the JSON intermediate struct
declared outside the given sources; a numeric type tag, the transaction ID as
a hex string and the output index as a decimal integer (§4.3, §6). -/
structure jsonutxoinput where
  Type' : Int
  TransactionID : String
  TransactionOutputIndex : Int
deriving DecidableEq, Repr

/-- Value of one hex digit character, upper or lower case, as accepted by
`hex.DecodeString`. -/
def hexCharVal (c : Char) : Option Nat :=
  if 48 ≤ c.toNat ∧ c.toNat ≤ 57 then some (c.toNat - 48)
  else if 97 ≤ c.toNat ∧ c.toNat ≤ 102 then some (c.toNat - 87)
  else if 65 ≤ c.toNat ∧ c.toNat ≤ 70 then some (c.toNat - 55)
  else none

/-- Hex decoding of a character list, two digits per byte; `none` on an odd
length or a non-hex character. -/
def hexDecodePairs : List Char → Option (List Nat)
  | [] => some []
  | [_] => none
  | c1 :: c2 :: rest => do
    let hi ← hexCharVal c1
    let lo ← hexCharVal c2
    let tl ← hexDecodePairs rest
    pure ((16 * hi + lo) :: tl)

/-- Modelled from the spec: `jsonutxoinput.ToSerializable`, declared outside
the given sources; fails with `InvalidHexEncoding` unless the identifier field
is exactly 64 valid hex characters, then applies the domain bounds check on
the slot index unconditionally, failing with `SlotIndexOutOfRange` outside
`[0,126]` (§4.3). -/
def jsonutxoinput.ToSerializable (j : jsonutxoinput) : Except SeriErr UTXOInput :=
  if j.TransactionID.data.length ≠ 64 then .error .InvalidHexEncoding
  else
    match hexDecodePairs j.TransactionID.data with
    | none => .error .InvalidHexEncoding
    | some bytes =>
      if 0 ≤ j.TransactionOutputIndex ∧
          j.TransactionOutputIndex ≤ (RefUTXOIndexMax : Int) then
        .ok { TransactionID := bytes,
              TransactionOutputIndex := j.TransactionOutputIndex.toNat }
      else .error .SlotIndexOutOfRange

/-- `UTXOInput.MarshalJSON` from `utxo_input.go`: builds the JSON intermediate
struct from the record with no validation (`json.Marshal` of this plain struct
never fails, so the result is the struct itself). -/
def UTXOInput.MarshalJSON (u : UTXOInput) : jsonutxoinput :=
  { Type' := (InputUTXO : Int)
    TransactionID := bytesToHex u.TransactionID
    TransactionOutputIndex := (u.TransactionOutputIndex : Int) }

/-- `UTXOInput.UnmarshalJSON` from `utxo_input.go`: the JSON text parsing of
`json.Unmarshal` is modelled by its outcome, an optional parsed struct
(`none` = malformed JSON, missing or mistyped fields). The receiver is only
assigned after `ToSerializable` succeeds, so the final receiver state is
returned alongside the result. -/
def UTXOInput.UnmarshalJSON (u : UTXOInput) (parsed : Option jsonutxoinput) :
    UTXOInput × Except SeriErr Unit :=
  match parsed with
  | none => (u, .error .MalformedJSON)
  | some jsonUTXO =>
    match jsonUTXO.ToSerializable with
    | .error e => (u, .error e)
    | .ok seri => (seri, .ok ())

end Iota

namespace Iota

theorem getD_drop (l : List Nat) (i j : Nat) :
    (l.drop i).getD j 0 = l.getD (i + j) 0 := by
  simp [List.getD, List.getElem?_drop]

theorem serialize_validation_ok (u : UTXOInput)
    (hidx : u.TransactionOutputIndex ≤ RefUTXOIndexMax) :
    u.Serialize true
      = .ok (InputUTXO :: (u.TransactionID ++ putUint16LE u.TransactionOutputIndex)) := by
  simp [UTXOInput.Serialize, NewSerializer, Serializer.AbortIf, Serializer.WriteNumByte,
    Serializer.WriteBytes, Serializer.WriteNumUint16, Serializer.Serialize,
    utxoInputRefBoundsValidator, RefUTXOIndexMin, hidx, InputUTXO]

theorem serialize_validation_err (u : UTXOInput)
    (hidx : RefUTXOIndexMax < u.TransactionOutputIndex) :
    u.Serialize true = .error .SlotIndexOutOfRange := by
  have h : ¬ u.TransactionOutputIndex ≤ RefUTXOIndexMax := Nat.not_le.mpr hidx
  simp [UTXOInput.Serialize, NewSerializer, Serializer.AbortIf, Serializer.WriteNumByte,
    Serializer.WriteBytes, Serializer.WriteNumUint16, Serializer.Serialize,
    utxoInputRefBoundsValidator, RefUTXOIndexMin, h]

end Iota

namespace Iota

theorem deserialize_strict_truncated (v : UTXOInput) (data : List Nat)
    (hlen : data.length < UTXOInputSize) :
    v.Deserialize data true = (v, .error .TruncatedInput) := by
  simp [UTXOInput.Deserialize, NewDeserializer, Deserializer.AbortIf, Deserializer.Skip,
    Deserializer.ReadArrayOf32Bytes, Deserializer.ReadNumUint16, Deserializer.Done,
    checkMinByteLength, hlen]

end Iota

namespace Iota

theorem checkMinByteLength_ok (minLen len : Nat) (h : minLen ≤ len) :
    checkMinByteLength minLen len = .ok () := by
  simp [checkMinByteLength, Nat.not_lt.mpr h]

theorem checkTypeByte_cons_ok (b : Nat) (rest : List Nat) (h : b = InputUTXO) :
    checkTypeByte (b :: rest) InputUTXO = .ok () := by
  simp [checkTypeByte, h]

theorem checkTypeByte_cons_mismatch (b : Nat) (rest : List Nat) (h : b ≠ InputUTXO) :
    checkTypeByte (b :: rest) InputUTXO = .error .TypeMismatch := by
  simp [checkTypeByte, h]

theorem deserialize_strict_mismatch (v : UTXOInput) (b : Nat) (rest : List Nat)
    (hlen : UTXOInputSize ≤ (b :: rest).length) (htag : b ≠ InputUTXO) :
    v.Deserialize (b :: rest) true = (v, .error .TypeMismatch) := by
  have hmin : checkMinByteLength UTXOInputSize (rest.length + 1) = .ok () :=
    checkMinByteLength_ok _ _ (by simpa using hlen)
  simp [UTXOInput.Deserialize, NewDeserializer, Deserializer.AbortIf, Deserializer.Skip,
    Deserializer.ReadArrayOf32Bytes, Deserializer.ReadNumUint16, Deserializer.Done,
    hmin, checkTypeByte_cons_mismatch b rest htag]

end Iota

namespace Iota

theorem deserialize_nonstrict_run (v : UTXOInput) (b : Nat) (rest : List Nat)
    (hlen : UTXOInputSize ≤ (b :: rest).length) :
    v.Deserialize (b :: rest) false = (decodedRecord (b :: rest), .ok UTXOInputSize) := by
  have hU : UTXOInputSize = 35 := rfl
  have hlen' : 35 ≤ rest.length + 1 := by rw [hU] at hlen; simpa using hlen
  have hA : ¬ (rest.length + 1 < 1) := by omega
  have hA' : ¬ (rest.length + 1 - 0 < 1) := by omega
  have hB : ¬ (rest.length < 32) := by omega
  have hB' : ¬ (rest.length + 1 - 1 < 32) := by omega
  have hC : ¬ (rest.length + 1 - 33 < 2) := by omega
  have hC' : ¬ (rest.length - 32 < 2) := by omega
  simp [UTXOInput.Deserialize, NewDeserializer, Deserializer.AbortIf, Deserializer.Skip,
    Deserializer.ReadArrayOf32Bytes, Deserializer.ReadNumUint16, Deserializer.Done,
    SmallTypeDenotationByteSize, UTXOInputSize, TransactionIDLength, UInt16ByteSize,
    decodedRecord, hA, hA', hB, hB', hC, hC']

theorem deserialize_strict_ok_run (v : UTXOInput) (b : Nat) (rest : List Nat)
    (hlen : UTXOInputSize ≤ (b :: rest).length) (htag : b = InputUTXO)
    (hidx : (decodedRecord (b :: rest)).TransactionOutputIndex ≤ RefUTXOIndexMax) :
    v.Deserialize (b :: rest) true = (decodedRecord (b :: rest), .ok UTXOInputSize) := by
  have hU : UTXOInputSize = 35 := rfl
  have hlen' : 35 ≤ rest.length + 1 := by rw [hU] at hlen; simpa using hlen
  have hmin : checkMinByteLength 35 (rest.length + 1) = .ok () :=
    checkMinByteLength_ok _ _ (by omega)
  have hA : ¬ (rest.length + 1 < 1) := by omega
  have hA' : ¬ (rest.length + 1 - 0 < 1) := by omega
  have hB : ¬ (rest.length < 32) := by omega
  have hB' : ¬ (rest.length + 1 - 1 < 32) := by omega
  have hC : ¬ (rest.length + 1 - 33 < 2) := by omega
  have hC' : ¬ (rest.length - 32 < 2) := by omega
  have hb' : rest[32]?.getD 0 + 256 * rest[33]?.getD 0 ≤ RefUTXOIndexMax := by
    simpa [decodedRecord, List.getD] using hidx
  simp [UTXOInput.Deserialize, NewDeserializer, Deserializer.AbortIf, Deserializer.Skip,
    Deserializer.ReadArrayOf32Bytes, Deserializer.ReadNumUint16, Deserializer.Done,
    SmallTypeDenotationByteSize, UTXOInputSize, TransactionIDLength, UInt16ByteSize,
    decodedRecord, checkTypeByte_cons_ok b rest htag, utxoInputRefBoundsValidator,
    RefUTXOIndexMin, hmin, hA, hA', hB, hB', hC, hC', hb']

theorem deserialize_strict_bounds_run (v : UTXOInput) (b : Nat) (rest : List Nat)
    (hlen : UTXOInputSize ≤ (b :: rest).length) (htag : b = InputUTXO)
    (hidx : RefUTXOIndexMax < (decodedRecord (b :: rest)).TransactionOutputIndex) :
    v.Deserialize (b :: rest) true
      = (decodedRecord (b :: rest), .error .SlotIndexOutOfRange) := by
  have hU : UTXOInputSize = 35 := rfl
  have hlen' : 35 ≤ rest.length + 1 := by rw [hU] at hlen; simpa using hlen
  have hmin : checkMinByteLength 35 (rest.length + 1) = .ok () :=
    checkMinByteLength_ok _ _ (by omega)
  have hA : ¬ (rest.length + 1 < 1) := by omega
  have hA' : ¬ (rest.length + 1 - 0 < 1) := by omega
  have hB : ¬ (rest.length < 32) := by omega
  have hB' : ¬ (rest.length + 1 - 1 < 32) := by omega
  have hC : ¬ (rest.length + 1 - 33 < 2) := by omega
  have hC' : ¬ (rest.length - 32 < 2) := by omega
  have hb' : ¬ (rest[32]?.getD 0 + 256 * rest[33]?.getD 0 ≤ RefUTXOIndexMax) := by
    have := Nat.not_le.mpr hidx
    simpa [decodedRecord, List.getD] using this
  simp [UTXOInput.Deserialize, NewDeserializer, Deserializer.AbortIf, Deserializer.Skip,
    Deserializer.ReadArrayOf32Bytes, Deserializer.ReadNumUint16, Deserializer.Done,
    SmallTypeDenotationByteSize, UTXOInputSize, TransactionIDLength, UInt16ByteSize,
    decodedRecord, checkTypeByte_cons_ok b rest htag, utxoInputRefBoundsValidator,
    RefUTXOIndexMin, hmin, hA, hA', hB, hB', hC, hC', hb']

end Iota

namespace Iota

theorem hexCharVal_hexDigit : ∀ x < 16, hexCharVal (hexDigit x) = some x := by decide

theorem hexDigit_mem_alphabet : ∀ x < 16, hexDigit x ∈ "0123456789abcdef".data := by decide

theorem flatten_byteToHex_length (bs : List Nat) :
    (bs.map byteToHex).flatten.length = 2 * bs.length := by
  induction bs with
  | nil => simp
  | cons b tl ih => simp [byteToHex, ih]; omega

theorem byteToHex_mem (b : Nat) (hb : b < 256) :
    ∀ c ∈ byteToHex b, c ∈ "0123456789abcdef".data := by
  have h1 : b / 16 < 16 := by omega
  have h2 : b % 16 < 16 := by omega
  intro c hc
  simp only [byteToHex, List.mem_cons, List.not_mem_nil, or_false] at hc
  rcases hc with rfl | rfl
  · exact hexDigit_mem_alphabet _ h1
  · exact hexDigit_mem_alphabet _ h2

theorem hexDecodePairs_byteToHex (bs : List Nat) (h : ∀ b ∈ bs, b < 256) :
    hexDecodePairs (bs.map byteToHex).flatten = some bs := by
  induction bs with
  | nil => rfl
  | cons b tl ih =>
    have hb : b < 256 := h b (List.mem_cons_self b tl)
    have htl := ih (fun x hx => h x (List.mem_cons_of_mem b hx))
    have h1 : b / 16 < 16 := by omega
    have h2 : b % 16 < 16 := by omega
    have hval : 16 * (b / 16) + b % 16 = b := Nat.div_add_mod b 16
    simp [List.map_cons, List.flatten_cons, byteToHex, hexDecodePairs,
      hexCharVal_hexDigit _ h1, hexCharVal_hexDigit _ h2, htl, hval]

end Iota

namespace Iota

/-- C6: for every `UTXOInput` record (including out-of-range output indices),
`ID` is total and returns the 34-byte value formed by the 32-byte
`TransactionID` followed by the output index as 2 little-endian bytes; records
with equal fields yield equal identifiers. (`ID` is a pure projection in this
embedding, matching the read-only Go method.) -/
theorem id_is_total_concat_and_deterministic (u w : UTXOInput)
    (hu : u.TransactionID.length = TransactionIDLength) :
    u.ID = u.TransactionID ++ putUint16LE u.TransactionOutputIndex ∧
    u.ID.length = 34 ∧
    (u.TransactionID = w.TransactionID →
      u.TransactionOutputIndex = w.TransactionOutputIndex → u.ID = w.ID) := by
  have h1 : u.ID = u.TransactionID ++ putUint16LE u.TransactionOutputIndex := by
    simp [UTXOInput.ID, TransactionIDLength, hu,
      List.take_of_length_le (le_of_eq hu)]
  refine ⟨h1, ?_, ?_⟩
  · rw [h1]
    simp [putUint16LE, hu, TransactionIDLength]
  · intro hid hidx
    simp [UTXOInput.ID, hid, hidx]

/-- C6 witness. -/
theorem id_is_total_concat_and_deterministic_witness :
    (UTXOInput.mk (List.replicate 32 17) 40000).ID
        = List.replicate 32 17 ++ putUint16LE 40000 ∧
    (UTXOInput.mk (List.replicate 32 17) 40000).ID.length = 34 ∧
    (List.replicate 32 17 = List.replicate 32 17 → (40000 : Nat) = 40000 →
      (UTXOInput.mk (List.replicate 32 17) 40000).ID
        = (UTXOInput.mk (List.replicate 32 17) 40000).ID) :=
  id_is_total_concat_and_deterministic
    ⟨List.replicate 32 17, 40000⟩ ⟨List.replicate 32 17, 40000⟩ (by decide)

/-- C7: for every 34-byte `UTXOInputID`, `ToHex` is a lowercase hex string of
exactly 68 characters with no separators, and on the identifier of the record
with transaction ID `0x11 × 32` and index 1 it is `"11" × 32` followed by
`"0100"`. -/
theorem tohex_lowercase_68 (id : UTXOInputID) (hlen : id.length = 34)
    (hbytes : ∀ b ∈ id, b < 256) :
    (UTXOInputID.ToHex id).length = 68 ∧
    (∀ c ∈ (UTXOInputID.ToHex id).data, c ∈ "0123456789abcdef".data) ∧
    UTXOInputID.ToHex (UTXOInput.ID
        { TransactionID := List.replicate 32 17, TransactionOutputIndex := 1 })
      = "11111111111111111111111111111111111111111111111111111111111111110100" := by
  refine ⟨?_, ?_, by decide⟩
  · show ((id.map byteToHex).flatten).length = 68
    rw [flatten_byteToHex_length, hlen]
  · intro c hc
    have hc' : c ∈ (id.map byteToHex).flatten := hc
    rw [List.mem_flatten] at hc'
    obtain ⟨l, hl, hcl⟩ := hc'
    rw [List.mem_map] at hl
    obtain ⟨b, hb, rfl⟩ := hl
    exact byteToHex_mem b (hbytes b hb) c hcl

/-- C7 witness. -/
theorem tohex_lowercase_68_witness :
    (UTXOInputID.ToHex (UTXOInput.ID
        { TransactionID := List.replicate 32 17, TransactionOutputIndex := 1 })).length = 68 ∧
    (∀ c ∈ (UTXOInputID.ToHex (UTXOInput.ID
        { TransactionID := List.replicate 32 17, TransactionOutputIndex := 1 })).data,
      c ∈ "0123456789abcdef".data) ∧
    UTXOInputID.ToHex (UTXOInput.ID
        { TransactionID := List.replicate 32 17, TransactionOutputIndex := 1 })
      = "11111111111111111111111111111111111111111111111111111111111111110100" :=
  tohex_lowercase_68
    (UTXOInput.ID { TransactionID := List.replicate 32 17, TransactionOutputIndex := 1 })
    (by decide) (by decide)

end Iota

namespace Iota

theorem decodedRecord_of_serialized (u : UTXOInput)
    (hlen : u.TransactionID.length = TransactionIDLength)
    (hidx : u.TransactionOutputIndex ≤ RefUTXOIndexMax) :
    decodedRecord (InputUTXO
        :: (u.TransactionID ++ putUint16LE u.TransactionOutputIndex)) = u := by
  have hlen' : u.TransactionID.length = 32 := hlen
  have hlo : u.TransactionOutputIndex % 256 = u.TransactionOutputIndex :=
    Nat.mod_eq_of_lt (by
      have : u.TransactionOutputIndex ≤ 126 := hidx
      omega)
  have hhi : u.TransactionOutputIndex / 256 % 256 = 0 := by
    have h126 : u.TransactionOutputIndex ≤ 126 := hidx
    have : u.TransactionOutputIndex / 256 = 0 := Nat.div_eq_of_lt (by omega)
    simp [this]
  have hdrop1 : (InputUTXO :: (u.TransactionID ++ putUint16LE u.TransactionOutputIndex)).drop 1
      = u.TransactionID ++ putUint16LE u.TransactionOutputIndex := rfl
  have hdrop33 : (InputUTXO :: (u.TransactionID ++ putUint16LE u.TransactionOutputIndex)).drop 33
      = putUint16LE u.TransactionOutputIndex := by
    have : (InputUTXO :: (u.TransactionID ++ putUint16LE u.TransactionOutputIndex)).drop 33
        = (u.TransactionID ++ putUint16LE u.TransactionOutputIndex).drop 32 := by
      rw [List.drop_succ_cons]
    rw [this, List.drop_left' hlen']
  unfold decodedRecord
  rw [hdrop1, hdrop33, List.take_left' hlen']
  simp [putUint16LE, hlo, hhi]

/-- C1: for every well-formed `UTXOInput` whose output index is in `[0,126]`,
serializing with validation enabled succeeds, and deserializing the produced
bytes with validation enabled (into any receiver) succeeds consuming all 35
bytes and yields a record field-wise equal to the original. -/
theorem binary_roundtrip (u v : UTXOInput) (hu : u.WF)
    (hidx : u.TransactionOutputIndex ≤ RefUTXOIndexMax) :
    ∃ bytes, u.Serialize true = .ok bytes ∧
      v.Deserialize bytes true = (u, .ok UTXOInputSize) := by
  obtain ⟨hlen, hby, hfit⟩ := hu
  refine ⟨_, serialize_validation_ok u hidx, ?_⟩
  have hdec := decodedRecord_of_serialized u hlen hidx
  have hrest : UTXOInputSize
      ≤ (InputUTXO :: (u.TransactionID ++ putUint16LE u.TransactionOutputIndex)).length := by
    have hlen' : u.TransactionID.length = 32 := hlen
    simp [UTXOInputSize, SmallTypeDenotationByteSize, TransactionIDLength, UInt16ByteSize,
      putUint16LE, hlen']
  rw [deserialize_strict_ok_run v InputUTXO
      (u.TransactionID ++ putUint16LE u.TransactionOutputIndex) hrest rfl
      (by rw [hdec]; exact hidx), hdec]

/-- C1 witness. -/
theorem binary_roundtrip_witness :
    ∃ bytes, (UTXOInput.mk (List.replicate 32 17) 126).Serialize true = .ok bytes ∧
      (UTXOInput.mk (List.replicate 32 3) 9).Deserialize bytes true
        = (UTXOInput.mk (List.replicate 32 17) 126, .ok UTXOInputSize) :=
  binary_roundtrip ⟨List.replicate 32 17, 126⟩ ⟨List.replicate 32 3, 9⟩
    (by decide) (by decide)

/-- C2: with validation enabled, `Serialize` fails with `SlotIndexOutOfRange`
for every record whose output index exceeds 126 (in particular 127), yielding
no bytes; for an index of 0 or 126 it succeeds and returns exactly 35 bytes:
the type tag, the 32-byte transaction ID verbatim, and the index as 2
little-endian bytes. -/
theorem serialize_strict_bounds (u : UTXOInput) (hu : u.WF) :
    (RefUTXOIndexMax < u.TransactionOutputIndex →
      u.Serialize true = .error .SlotIndexOutOfRange) ∧
    (u.TransactionOutputIndex = 0 ∨ u.TransactionOutputIndex = RefUTXOIndexMax →
      u.Serialize true
          = .ok (InputUTXO :: (u.TransactionID ++ putUint16LE u.TransactionOutputIndex)) ∧
        (InputUTXO :: (u.TransactionID ++ putUint16LE u.TransactionOutputIndex)).length
          = UTXOInputSize) := by
  obtain ⟨hlen, -, -⟩ := hu
  constructor
  · exact fun h => serialize_validation_err u h
  · intro h
    have hle : u.TransactionOutputIndex ≤ RefUTXOIndexMax := by
      rcases h with h0 | h126
      · rw [h0]; exact Nat.zero_le _
      · exact le_of_eq h126
    refine ⟨serialize_validation_ok u hle, ?_⟩
    have hlen' : u.TransactionID.length = 32 := hlen
    simp [putUint16LE, hlen', UTXOInputSize, SmallTypeDenotationByteSize,
      TransactionIDLength, UInt16ByteSize]

/-- C2 witness. -/
theorem serialize_strict_bounds_witness :
    ((UTXOInput.mk (List.replicate 32 17) 127).Serialize true
        = .error .SlotIndexOutOfRange) ∧
    ((UTXOInput.mk (List.replicate 32 17) 126).Serialize true
        = .ok (InputUTXO :: (List.replicate 32 17 ++ putUint16LE 126)) ∧
      (InputUTXO :: (List.replicate 32 17 ++ putUint16LE 126)).length = UTXOInputSize) :=
  ⟨(serialize_strict_bounds ⟨List.replicate 32 17, 127⟩ (by decide)).1 (by decide),
   (serialize_strict_bounds ⟨List.replicate 32 17, 126⟩ (by decide)).2 (Or.inr rfl)⟩

end Iota

namespace Iota

theorem decodedRecord_take (data : List Nat) :
    decodedRecord (data.take UTXOInputSize) = decodedRecord data := by
  have hU : UTXOInputSize = 35 := rfl
  have h1 : ((data.take 35).drop 1).take 32 = (data.drop 1).take 32 := by
    rw [List.drop_take, List.take_take]
    norm_num
  have h2 : (data.take 35).drop 33 = (data.drop 33).take 2 := by
    rw [List.drop_take]
  have h3 : ((data.drop 33).take 2).getD 0 0 = (data.drop 33).getD 0 0 := by
    simp [List.getD, List.getElem?_take]
  have h4 : ((data.drop 33).take 2).getD 1 0 = (data.drop 33).getD 1 0 := by
    simp [List.getD, List.getElem?_take]
  rw [hU]
  unfold decodedRecord
  rw [h1, h2, h3, h4]

theorem decodedRecord_index_getD (data : List Nat) :
    (decodedRecord data).TransactionOutputIndex
      = data.getD 33 0 + 256 * data.getD 34 0 := by
  unfold decodedRecord
  simp [List.getD, List.getElem?_drop]

/-- C3: with validation enabled, `Deserialize` fails with `TruncatedInput` on
every buffer shorter than 35 bytes; on every buffer of length at least 35
whose first byte is the expected type tag and whose bytes 33..34 encode a
little-endian index in `[0,126]`, it succeeds consuming exactly 35 bytes and
its result depends only on the first 35 bytes (trailing bytes ignored). -/
theorem deserialize_truncation_and_exact_consumption (v : UTXOInput) (data : List Nat) :
    (data.length < UTXOInputSize →
      v.Deserialize data true = (v, .error .TruncatedInput)) ∧
    (UTXOInputSize ≤ data.length → data.getD 0 0 = InputUTXO →
      data.getD 33 0 + 256 * data.getD 34 0 ≤ RefUTXOIndexMax →
      v.Deserialize data true = (decodedRecord data, .ok UTXOInputSize) ∧
        v.Deserialize data true = v.Deserialize (data.take UTXOInputSize) true) := by
  refine ⟨fun h => deserialize_strict_truncated v data h, ?_⟩
  intro hlen htag hidx
  obtain ⟨b, rest, rfl⟩ : ∃ b rest, data = b :: rest := by
    cases data with
    | nil => simp [UTXOInputSize, SmallTypeDenotationByteSize, TransactionIDLength,
        UInt16ByteSize] at hlen
    | cons b rest => exact ⟨b, rest, rfl⟩
  have htag' : b = InputUTXO := by simpa using htag
  have hidxD : (decodedRecord (b :: rest)).TransactionOutputIndex ≤ RefUTXOIndexMax := by
    rw [decodedRecord_index_getD]
    exact hidx
  have hrun := deserialize_strict_ok_run v b rest hlen htag' hidxD
  refine ⟨hrun, ?_⟩
  have htake : (b :: rest).take UTXOInputSize = b :: rest.take 34 := rfl
  have hlen34 : 34 ≤ rest.length := by
    have : (35 : Nat) ≤ rest.length + 1 := by simpa [UTXOInputSize,
      SmallTypeDenotationByteSize, TransactionIDLength, UInt16ByteSize] using hlen
    omega
  have hlenT : UTXOInputSize ≤ (b :: rest.take 34).length := by
    simp [UTXOInputSize, SmallTypeDenotationByteSize, TransactionIDLength, UInt16ByteSize,
      hlen34]
  have hdecT : decodedRecord (b :: rest.take 34) = decodedRecord (b :: rest) := by
    have := decodedRecord_take (b :: rest)
    rwa [htake] at this
  have hidxT : (decodedRecord (b :: rest.take 34)).TransactionOutputIndex
      ≤ RefUTXOIndexMax := by rw [hdecT]; exact hidxD
  have hrunT := deserialize_strict_ok_run v b (rest.take 34) hlenT htag' hidxT
  rw [hrun, htake, hrunT, hdecT]

/-- C3 witness: a 34-byte buffer is rejected as truncated; a 39-byte buffer
with a valid tag and index decodes to the same result as its first 35 bytes. -/
theorem deserialize_truncation_and_exact_consumption_witness :
    ((UTXOInput.mk (List.replicate 32 5) 7).Deserialize (List.replicate 34 0) true
        = (UTXOInput.mk (List.replicate 32 5) 7, .error .TruncatedInput)) ∧
    ((UTXOInput.mk (List.replicate 32 5) 7).Deserialize
          (0 :: (List.replicate 32 17 ++ [1, 0, 9, 9, 9, 9])) true
        = (decodedRecord (0 :: (List.replicate 32 17 ++ [1, 0, 9, 9, 9, 9])),
           .ok UTXOInputSize) ∧
      (UTXOInput.mk (List.replicate 32 5) 7).Deserialize
          (0 :: (List.replicate 32 17 ++ [1, 0, 9, 9, 9, 9])) true
        = (UTXOInput.mk (List.replicate 32 5) 7).Deserialize
            ((0 :: (List.replicate 32 17 ++ [1, 0, 9, 9, 9, 9])).take UTXOInputSize) true) :=
  ⟨(deserialize_truncation_and_exact_consumption
      ⟨List.replicate 32 5, 7⟩ (List.replicate 34 0)).1 (by decide),
   (deserialize_truncation_and_exact_consumption ⟨List.replicate 32 5, 7⟩
      (0 :: (List.replicate 32 17 ++ [1, 0, 9, 9, 9, 9]))).2
      (by decide) (by decide) (by decide)⟩

end Iota

namespace Iota

/-- C4: for every 35-byte buffer whose first byte differs from the expected
type tag, `Deserialize` with validation enabled fails with `TypeMismatch`
(leaving the receiver unchanged), while `Deserialize` of the same buffer with
validation disabled succeeds consuming all 35 bytes (the tag byte is skipped
without being checked). -/
theorem deserialize_tag_check_mode_dependent (v : UTXOInput) (data : List Nat)
    (hlen : data.length = UTXOInputSize) (htag : data.getD 0 0 ≠ InputUTXO) :
    v.Deserialize data true = (v, .error .TypeMismatch) ∧
    v.Deserialize data false = (decodedRecord data, .ok UTXOInputSize) := by
  obtain ⟨b, rest, rfl⟩ : ∃ b rest, data = b :: rest := by
    cases data with
    | nil => simp [UTXOInputSize, SmallTypeDenotationByteSize, TransactionIDLength,
        UInt16ByteSize] at hlen
    | cons b rest => exact ⟨b, rest, rfl⟩
  have htag' : b ≠ InputUTXO := by simpa using htag
  have hlen' : UTXOInputSize ≤ (b :: rest).length := le_of_eq hlen.symm
  exact ⟨deserialize_strict_mismatch v b rest hlen' htag',
         deserialize_nonstrict_run v b rest hlen'⟩

/-- C4 witness. -/
theorem deserialize_tag_check_mode_dependent_witness :
    (UTXOInput.mk (List.replicate 32 5) 7).Deserialize
        (9 :: (List.replicate 32 17 ++ [1, 0])) true
      = (UTXOInput.mk (List.replicate 32 5) 7, .error .TypeMismatch) ∧
    (UTXOInput.mk (List.replicate 32 5) 7).Deserialize
        (9 :: (List.replicate 32 17 ++ [1, 0])) false
      = (decodedRecord (9 :: (List.replicate 32 17 ++ [1, 0])), .ok UTXOInputSize) :=
  deserialize_tag_check_mode_dependent ⟨List.replicate 32 5, 7⟩
    (9 :: (List.replicate 32 17 ++ [1, 0])) (by decide) (by decide)

/-- C9 (implicit): when strict `Deserialize` fails the final slot-index bounds
check, the returned receiver state already carries the decoded transaction ID
and the decoded out-of-range index: the bounds check runs after the field
reads, so the failure is not atomic with respect to the receiver. -/
theorem deserialize_bounds_failure_overwrites_receiver (v : UTXOInput) (data : List Nat)
    (hlen : UTXOInputSize ≤ data.length) (htag : data.getD 0 0 = InputUTXO)
    (hidx : RefUTXOIndexMax < data.getD 33 0 + 256 * data.getD 34 0) :
    v.Deserialize data true
      = ({ TransactionID := (data.drop 1).take 32,
           TransactionOutputIndex := data.getD 33 0 + 256 * data.getD 34 0 },
         .error .SlotIndexOutOfRange) := by
  obtain ⟨b, rest, rfl⟩ : ∃ b rest, data = b :: rest := by
    cases data with
    | nil => simp [UTXOInputSize, SmallTypeDenotationByteSize, TransactionIDLength,
        UInt16ByteSize] at hlen
    | cons b rest => exact ⟨b, rest, rfl⟩
  have htag' : b = InputUTXO := by simpa using htag
  have hidxD : RefUTXOIndexMax < (decodedRecord (b :: rest)).TransactionOutputIndex := by
    rw [decodedRecord_index_getD]
    exact hidx
  rw [deserialize_strict_bounds_run v b rest hlen htag' hidxD]
  unfold decodedRecord
  simp [List.getD, List.getElem?_drop]

/-- C9 witness. -/
theorem deserialize_bounds_failure_overwrites_receiver_witness :
    (UTXOInput.mk (List.replicate 32 5) 7).Deserialize
        (0 :: (List.replicate 32 17 ++ [200, 0])) true
      = ({ TransactionID :=
             ((0 :: (List.replicate 32 17 ++ [200, 0])).drop 1).take 32,
           TransactionOutputIndex :=
             (0 :: (List.replicate 32 17 ++ [200, 0])).getD 33 0
               + 256 * (0 :: (List.replicate 32 17 ++ [200, 0])).getD 34 0 },
         .error .SlotIndexOutOfRange) :=
  deserialize_bounds_failure_overwrites_receiver ⟨List.replicate 32 5, 7⟩
    (0 :: (List.replicate 32 17 ++ [200, 0])) (by decide) (by decide) (by decide)

end Iota

namespace Iota

/-- C5: `MarshalJSON` is total and validation-free — for every record
(including out-of-range indices) it emits the numeric type tag, the
transaction ID as a lowercase 64-character hex string and the output index as
a decimal integer — while `UnmarshalJSON` (which takes no validation mode)
always applies the slot-index bounds check, failing with `SlotIndexOutOfRange`
for a parsed object whose index lies outside `[0,126]`. -/
theorem marshal_no_validation_unmarshal_always_bounds (u v : UTXOInput)
    (j : jsonutxoinput) (hu : u.WF) :
    u.MarshalJSON = { Type' := (InputUTXO : Int),
                      TransactionID := bytesToHex u.TransactionID,
                      TransactionOutputIndex := (u.TransactionOutputIndex : Int) } ∧
    u.MarshalJSON.TransactionID.length = 64 ∧
    (∀ c ∈ u.MarshalJSON.TransactionID.data, c ∈ "0123456789abcdef".data) ∧
    (j.TransactionID.data.length = 64 → (hexDecodePairs j.TransactionID.data).isSome →
      ¬ (0 ≤ j.TransactionOutputIndex ∧
          j.TransactionOutputIndex ≤ (RefUTXOIndexMax : Int)) →
      v.UnmarshalJSON (some j) = (v, .error .SlotIndexOutOfRange)) := by
  obtain ⟨hlen, hby, -⟩ := hu
  refine ⟨rfl, ?_, ?_, ?_⟩
  · show ((u.TransactionID.map byteToHex).flatten).length = 64
    rw [flatten_byteToHex_length, hlen]
    rfl
  · intro c hc
    have hc' : c ∈ (u.TransactionID.map byteToHex).flatten := hc
    rw [List.mem_flatten] at hc'
    obtain ⟨l, hl, hcl⟩ := hc'
    rw [List.mem_map] at hl
    obtain ⟨bb, hb, rfl⟩ := hl
    exact byteToHex_mem bb (hby bb hb) c hcl
  · intro h64 hsome hbound
    obtain ⟨bytes, hbytes⟩ := Option.isSome_iff_exists.mp hsome
    simp [UTXOInput.UnmarshalJSON, jsonutxoinput.ToSerializable, h64, hbytes, hbound]

/-- C5 witness: a record with out-of-range index 200 still marshals, and a
parsed object with index 127 is rejected with `SlotIndexOutOfRange`. -/
theorem marshal_no_validation_unmarshal_always_bounds_witness :
    (UTXOInput.mk (List.replicate 32 17) 200).MarshalJSON
        = { Type' := (InputUTXO : Int),
            TransactionID := bytesToHex (List.replicate 32 17),
            TransactionOutputIndex := (200 : Int) } ∧
    (UTXOInput.mk (List.replicate 32 17) 200).MarshalJSON.TransactionID.length = 64 ∧
    (UTXOInput.mk (List.replicate 32 5) 7).UnmarshalJSON
        (some { Type' := (InputUTXO : Int),
                TransactionID := String.mk (List.replicate 64 (Char.ofNat 48)),
                TransactionOutputIndex := (127 : Int) })
      = (UTXOInput.mk (List.replicate 32 5) 7, .error .SlotIndexOutOfRange) :=
  ⟨(marshal_no_validation_unmarshal_always_bounds
      ⟨List.replicate 32 17, 200⟩ ⟨List.replicate 32 5, 7⟩
      { Type' := (InputUTXO : Int),
        TransactionID := String.mk (List.replicate 64 (Char.ofNat 48)),
        TransactionOutputIndex := (127 : Int) } (by decide)).1,
   (marshal_no_validation_unmarshal_always_bounds
      ⟨List.replicate 32 17, 200⟩ ⟨List.replicate 32 5, 7⟩
      { Type' := (InputUTXO : Int),
        TransactionID := String.mk (List.replicate 64 (Char.ofNat 48)),
        TransactionOutputIndex := (127 : Int) } (by decide)).2.1,
   (marshal_no_validation_unmarshal_always_bounds
      ⟨List.replicate 32 17, 200⟩ ⟨List.replicate 32 5, 7⟩
      { Type' := (InputUTXO : Int),
        TransactionID := String.mk (List.replicate 64 (Char.ofNat 48)),
        TransactionOutputIndex := (127 : Int) } (by decide)).2.2.2
      (by decide) (by decide) (by decide)⟩

/-- C8: for every well-formed record with index in `[0,126]`, unmarshalling
its own marshalled form yields an equal record, and unmarshalling an object
whose transaction-ID field is a 63-character hex string fails with
`InvalidHexEncoding`. -/
theorem json_roundtrip_and_hex_length_rejection (u v w : UTXOInput) (hu : u.WF)
    (hidx : u.TransactionOutputIndex ≤ RefUTXOIndexMax) :
    v.UnmarshalJSON (some u.MarshalJSON) = (u, .ok ()) ∧
    w.UnmarshalJSON (some { Type' := (InputUTXO : Int),
                            TransactionID :=
                              String.mk (List.replicate 63 (Char.ofNat 49)),
                            TransactionOutputIndex := (0 : Int) })
      = (w, .error .InvalidHexEncoding) := by
  obtain ⟨hlen, hby, -⟩ := hu
  constructor
  · have h64 : ((u.TransactionID.map byteToHex).flatten).length = 64 := by
      rw [flatten_byteToHex_length, hlen]
      rfl
    have hdec := hexDecodePairs_byteToHex u.TransactionID hby
    have hb2 : (u.TransactionOutputIndex : Int) ≤ (RefUTXOIndexMax : Int) := by
      exact_mod_cast hidx
    simp [UTXOInput.UnmarshalJSON, UTXOInput.MarshalJSON, jsonutxoinput.ToSerializable,
      bytesToHex, h64, hdec, hb2]
  · simp [UTXOInput.UnmarshalJSON, jsonutxoinput.ToSerializable]

/-- C8 witness. -/
theorem json_roundtrip_and_hex_length_rejection_witness :
    (UTXOInput.mk (List.replicate 32 5) 7).UnmarshalJSON
        (some (UTXOInput.mk (List.replicate 32 17) 1).MarshalJSON)
      = (UTXOInput.mk (List.replicate 32 17) 1, .ok ()) ∧
    (UTXOInput.mk (List.replicate 32 5) 7).UnmarshalJSON
        (some { Type' := (InputUTXO : Int),
                TransactionID := String.mk (List.replicate 63 (Char.ofNat 49)),
                TransactionOutputIndex := (0 : Int) })
      = (UTXOInput.mk (List.replicate 32 5) 7, .error .InvalidHexEncoding) :=
  json_roundtrip_and_hex_length_rejection
    ⟨List.replicate 32 17, 1⟩ ⟨List.replicate 32 5, 7⟩ ⟨List.replicate 32 5, 7⟩
    (by decide) (by decide)

/-- C10 (implicit): `UnmarshalJSON` is atomic — on any failure (parse failure
or a `ToSerializable` error) the receiver is unchanged, and on success both
fields are overwritten with the decoded record. -/
theorem unmarshal_failure_leaves_receiver_unchanged (u : UTXOInput)
    (parsed : Option jsonutxoinput) :
    (∀ e, (u.UnmarshalJSON parsed).2 = .error e → (u.UnmarshalJSON parsed).1 = u) ∧
    (∀ j r, parsed = some j → j.ToSerializable = .ok r →
      u.UnmarshalJSON parsed = (r, .ok ())) := by
  constructor
  · intro e he
    cases parsed with
    | none => rfl
    | some j =>
      cases hts : j.ToSerializable with
      | error e' => simp [UTXOInput.UnmarshalJSON, hts]
      | ok r =>
        rw [UTXOInput.UnmarshalJSON] at he
        simp [hts] at he
  · intro j r hp hts
    subst hp
    simp [UTXOInput.UnmarshalJSON, hts]

/-- C10 witness: malformed JSON and an out-of-range index both leave the
receiver unchanged; a valid object overwrites it. -/
theorem unmarshal_failure_leaves_receiver_unchanged_witness :
    ((UTXOInput.mk (List.replicate 32 5) 7).UnmarshalJSON none).1
        = UTXOInput.mk (List.replicate 32 5) 7 ∧
    (UTXOInput.mk (List.replicate 32 5) 7).UnmarshalJSON
        (some (UTXOInput.mk (List.replicate 32 17) 1).MarshalJSON)
      = (UTXOInput.mk (List.replicate 32 17) 1, .ok ()) :=
  ⟨(unmarshal_failure_leaves_receiver_unchanged ⟨List.replicate 32 5, 7⟩ none).1
      .MalformedJSON (by decide),
   (unmarshal_failure_leaves_receiver_unchanged ⟨List.replicate 32 5, 7⟩
      (some (UTXOInput.mk (List.replicate 32 17) 1).MarshalJSON)).2
      (UTXOInput.mk (List.replicate 32 17) 1).MarshalJSON
      ⟨List.replicate 32 17, 1⟩ rfl (by decide)⟩

end Iota
